import Mathlib

/-!
# Verification of the agent continuation engine of `web_agentic_ai`

Shallow embedding of the Python sources under `app/` (claude-tooling):

* `app/tools/tool_wrapper.py` — tool registry & dispatcher (`process_tool_calls`,
  `format_tool_results_for_claude`);
* `app/api/services/conversation.py` — conversation store (global dicts
  `conversations`, `auto_execute_tasks`, `auto_execute_counts` and their accessors);
* `app/api/services/tool_execution.py` — continuation engine
  (`process_tool_calls_and_continue`), including the inline history-repair pass;
* `app/api/routes/conversation.py` — `get_conversation_messages`,
  `resume_auto_execution`, `cancel_auto_execution`.

Modelling conventions:

* Python dict-shaped messages become records; a missing key or a `None` value is
  `Option.none`.  Effectful tool bodies (filesystem, network, the Anthropic API)
  are oracles passed as function parameters; the control flow around them is
  embedded faithfully.
* All state for a single conversation id (its history, task status entry,
  auto-execute count, progress snapshot) is gathered in one record `St`; the
  global dicts keyed by conversation id are projected to the single id the
  modelled run works on.
* `update_progress` / `get_request_progress` are imported throughout the code
  base from `app.api.services.conversation` but that module's copy under `src/`
  does not define them; they are modelled from the spec (§4.3, §4.4, §8), see
  `update_progress` below.
* Timestamps (`datetime.datetime.now().timestamp()`) become a logical clock
  (`St.clock`) that increases at each use, so generated message ids are distinct,
  matching the intent of the timestamp-derived ids.
-/

/-- Minimal JSON value universe: the shapes Python's `json.dumps` receives here. -/
inductive Json where
  | null : Json
  | bool (b : Bool) : Json
  | num (n : Int) : Json
  | str (s : String) : Json
  | arr (xs : List Json) : Json
  | obj (fields : List (String × Json)) : Json
deriving Inhabited

/-- JSON string escaping, character by character (quotes and backslashes; the
strings produced by this code base contain no other characters needing
escapes). -/
def jsonEscapeChars : List Char → String
  | [] => ""
  | c :: cs =>
      (if c = '"' then "\\\""
       else if c = '\\' then "\\\\"
       else String.singleton c) ++ jsonEscapeChars cs

/-- JSON string escaping for the encoder. -/
def jsonEscape (s : String) : String :=
  jsonEscapeChars s.data

mutual

/-- Embedding of Python's `json.dumps` with its default separators. -/
def Json.dumps : Json → String
  | .null => "null"
  | .bool b => if b then "true" else "false"
  | .num n => toString n
  | .str s => "\"" ++ jsonEscape s ++ "\""
  | .arr xs => "[" ++ Json.dumpsList xs ++ "]"
  | .obj fs => "\x7b" ++ Json.dumpsFields fs ++ "\x7d"

def Json.dumpsList : List Json → String
  | [] => ""
  | [x] => Json.dumps x
  | x :: y :: rest => Json.dumps x ++ ", " ++ Json.dumpsList (y :: rest)

def Json.dumpsFields : List (String × Json) → String
  | [] => ""
  | [(k, v)] => "\"" ++ jsonEscape k ++ "\": " ++ Json.dumps v
  | (k, v) :: f :: rest =>
      "\"" ++ jsonEscape k ++ "\": " ++ Json.dumps v ++ ", " ++ Json.dumpsFields (f :: rest)

end

/-- Python `obj.get("key")` on a JSON object. -/
def Json.get? (j : Json) (key : String) : Option Json :=
  match j with
  | .obj fs => (fs.find? (fun kv => kv.1 == key)).map (·.2)
  | _ => none

/-- Python `"key" in obj` on a JSON object. -/
def Json.hasKey (j : Json) (key : String) : Bool :=
  (j.get? key).isSome

/-- Python `f"...{x}..."` rendering of a value that may be `None`. -/
def pyStr : Option String → String
  | some s => s
  | none => "None"

/-- A tool call dict as built by the extraction code
(`{"id": item.get('id'), "name": item.get('name'), "input": item.get('input', {})}`,
`tool_execution.py` lines 429–433): `none` models an absent key or a `None` value. -/
structure ToolCall where
  id : Option String := none
  name : Option String := none
  input : Json := Json.obj []
deriving Inhabited

/-- An entry of the `tool_results` list built by `process_tool_calls`
(`tool_wrapper.py` lines 391–421): both fields are always strings there. -/
structure ToolResultEntry where
  tool_use_id : String
  content : String
deriving DecidableEq, Inhabited

/-- The guard chain of `process_tool_calls` (`tool_wrapper.py` lines 355–384):
a call is handled by a real tool branch exactly when this holds; otherwise the
`else` branch (line 386) reports an unknown tool.  `cidP` is the truthiness of
the `conversation_id` argument.  Note the `save_file` / `read_file` branches
additionally require a `file_path` key and a conversation id. -/
def known_branch (cidP : Bool) (tc : ToolCall) : Bool :=
  (tc.name == some "save_file" && tc.input.hasKey "file_path" && cidP) ||
  (tc.name == some "read_file" && tc.input.hasKey "file_path" && cidP) ||
  (tc.name == some "run_terminal_command") ||
  (tc.name == some "install_python_package") ||
  (tc.name == some "web_search") ||
  (tc.name == some "extract_web_content")

/-- Names of the fixed registry `TOOL_FUNCTIONS` (`tool_wrapper.py` lines 222–229). -/
def TOOL_FUNCTIONS_names : List String :=
  ["save_file", "read_file", "run_terminal_command", "install_python_package",
   "web_search", "extract_web_content"]

/-- The value Python binds to `result` in `process_tool_calls` for one call:
for a real tool branch it is the branch body's outcome (the branch bodies
perform I/O — filesystem, subprocess, network — so they are an oracle
`runTool`, which either returns the `result` value or raises `.error msg`);
the `else` branch builds the unknown-tool envelope (line 386). -/
def dispatch_result (runTool : ToolCall → Except String Json) (cidP : Bool)
    (tc : ToolCall) : Except String Json :=
  if known_branch cidP tc then runTool tc
  else .ok (Json.obj [("status", Json.str "error"),
                      ("message", Json.str ("Unknown tool: " ++ pyStr tc.name))])

/-- The error envelope built by the `except` handler of the dispatch loop
(`tool_wrapper.py` lines 407–410). -/
def dispatch_error_envelope (e : String) : Json :=
  Json.obj [("status", Json.str "error"),
            ("message", Json.str ("Error processing tool call: " ++ e))]

/-- One iteration of the loop body of `process_tool_calls`
(`tool_wrapper.py` lines 346–421), producing the entry appended to
`tool_results`; `k` is `len(tool_results)` at that point.  The success path
tests `if tool_id:` (truthiness: present and non-empty), the exception path
tests `"id" in tool_call` (presence). -/
def result_for (runTool : ToolCall → Except String Json) (cidP : Bool)
    (tc : ToolCall) (k : Nat) : ToolResultEntry :=
  match dispatch_result runTool cidP tc with
  | .ok result =>
      match tc.id with
      | some s =>
          if s ≠ "" then ⟨s, Json.dumps result⟩
          else ⟨"unknown_" ++ toString k, Json.dumps result⟩
      | none => ⟨"unknown_" ++ toString k, Json.dumps result⟩
  | .error e =>
      match tc.id with
      | some s => ⟨s, Json.dumps (dispatch_error_envelope e)⟩
      | none => ⟨"error_" ++ toString k, Json.dumps (dispatch_error_envelope e)⟩

/-- The dispatch loop of `process_tool_calls` (`tool_wrapper.py` lines 344–422):
`acc` is the `tool_results` accumulator. -/
def process_tool_calls_go (runTool : ToolCall → Except String Json) (cidP : Bool) :
    List ToolCall → List ToolResultEntry → List ToolResultEntry
  | [], acc => acc
  | tc :: rest, acc =>
      process_tool_calls_go runTool cidP rest (acc ++ [result_for runTool cidP tc acc.length])

/-- Embedding of `process_tool_calls` (`tool_wrapper.py` lines 333–423). -/
def process_tool_calls (runTool : ToolCall → Except String Json) (cidP : Bool)
    (tool_calls : List ToolCall) : List ToolResultEntry :=
  process_tool_calls_go runTool cidP tool_calls []

/-- Reference form of the dispatch loop's output: the result of the call at
overall position `k`, then the rest starting at `k + 1`.  Used only to state
and prove the characterization lemmas below. -/
def results_from (runTool : ToolCall → Except String Json) (cidP : Bool)
    (k : Nat) : List ToolCall → List ToolResultEntry
  | [] => []
  | tc :: rest => result_for runTool cidP tc k :: results_from runTool cidP (k + 1) rest

/-- Identifiers attached to transient conversation messages.  The Python code
builds them as `f"tool_start_{id}_{ts}"`, `f"tool_complete_{id}_{ts}"`,
`f"placeholder_{ts}"`; the three prefixes are distinct and the suffix encodes
the pair, so the string encoding is injective and is modelled by this tagged
type (`t` is the logical clock standing in for `int(timestamp)`). -/
inductive MsgId where
  | toolStart (callId : String) (t : Nat)
  | toolComplete (callId : String) (t : Nat)
  | placeholder (t : Nat)
deriving DecidableEq, Inhabited

/-- A content-block dict: a tagged record probed by `.get("type")` etc.
`none` models an absent key (or a `None` value).  `content` of a
`tool_result` block is always a string in this code base. -/
structure Block where
  type : Option String := none
  text : Option String := none
  id : Option String := none
  name : Option String := none
  input : Json := Json.obj []
  tool_use_id : Option String := none
  content : Option String := none
deriving Inhabited

/-- A `{"type": "text", "text": s}` block. -/
def textBlock (s : String) : Block := { type := some "text", text := some s }

/-- A message dict of the conversation store: `role`, `content`, and the
optional UI flags probed with `.get` (absent key ≡ false for the flags). -/
structure Msg where
  role : String
  content : List Block
  id : Option MsgId := none
  is_placeholder : Bool := false
  is_status : Bool := false
  is_temporary : Bool := false
deriving Inhabited

/-- Embedding of `format_tool_results_for_claude` (`tool_wrapper.py` lines
674–709): keeps exactly the entries whose `tool_use_id` and `content` are
truthy (non-empty strings) and wraps them as `tool_result` blocks. -/
def format_tool_results_for_claude (rs : List ToolResultEntry) : List Block :=
  rs.filterMap (fun r =>
    if r.tool_use_id != "" && r.content != "" then
      some { type := some "tool_result", tool_use_id := some r.tool_use_id,
             content := some r.content }
    else none)

/-- `tool_use_indices` membership test of the repair pass
(`tool_execution.py` lines 268–278): an assistant message with a `tool_use`
content block. -/
def msg_has_tool_use (m : Msg) : Bool :=
  m.role == "assistant" && m.content.any (fun b => b.type == some "tool_use")

/-- The `content` of the synthetic `json.dumps({"status": "error", "message":
"No result available"})` tool result (`tool_execution.py` line 318). -/
def no_result_content : String :=
  Json.dumps (Json.obj [("status", Json.str "error"),
                        ("message", Json.str "No result available")])

/-- The `empty_results` list synthesized for an unanswered assistant message
(`tool_execution.py` lines 309–319): one error `tool_result` per `tool_use`
block, in order. -/
def synthetic_results (m : Msg) : List Block :=
  (m.content.filter (fun b => b.type == some "tool_use")).map
    (fun b => { type := some "tool_result", tool_use_id := b.id,
                content := some no_result_content })

/-- The `if empty_results:` guard and insertion (`tool_execution.py` lines
321–325). -/
def append_synth (m : Msg) (tail : List Msg) : List Msg :=
  if (synthetic_results m).isEmpty then tail
  else { role := "user", content := synthetic_results m } :: tail

/-- The repair scan of `tool_execution.py` lines 282–330, rephrased from the
index-plus-`skip_indices` loop to a look-ahead list recursion: the loop adds
`i + 1` to `skip_indices` exactly when it consumes the following user message,
so skipping it equals consuming the look-ahead element here. -/
def fix_messages_go : List Msg → List Msg
  | [] => []
  | m :: rest =>
      if msg_has_tool_use m then
        match rest with
        | m2 :: rest2 =>
            if m2.role == "user" && m2.content.any (fun b => b.type == some "tool_result") then
              m :: m2 :: fix_messages_go rest2
            else
              m :: append_synth m (fix_messages_go (m2 :: rest2))
        | [] => m :: append_synth m []
      else m :: fix_messages_go rest

/-- Embedding of the history-repair block of `process_tool_calls_and_continue`
(`tool_execution.py` lines 266–330): the scan runs only when some assistant
message has a `tool_use` block (`if tool_use_indices:` line 281). -/
def fix_messages (msgs : List Msg) : List Msg :=
  if msgs.any msg_has_tool_use then fix_messages_go msgs else msgs

/-- Extraction of new tool calls from a reply's content blocks
(`tool_execution.py` lines 426–433; the same shape is rebuilt by
`resume_auto_execution`, `routes/conversation.py` lines 207–214). -/
def extract_tool_calls (blocks : List Block) : List ToolCall :=
  blocks.filterMap (fun b =>
    if b.type == some "tool_use" then
      some { id := b.id, name := b.name, input := b.input }
    else none)

/-- The progress snapshot dict stored by the progress tracker
(fields asserted by `tests/test_async_status.py`). -/
structure Progress where
  status : String
  step : String
  message : String
  progress_pct : Int
  timestamp : Nat
deriving DecidableEq, Inhabited

/-- The per-conversation slice of the global state of
`app/api/services/conversation.py`, projected to one conversation id:
`conv = conversations.get(cid)`, `task = auto_execute_tasks.get(cid)`,
`count = auto_execute_counts.get(cid, 0)`, `progress = request_progress.get(cid)`.
`clock` is the logical timestamp source and `upstream` counts the Claude API
calls made (instrumentation used to state the claims). -/
structure St where
  conv : Option (List Msg) := none
  task : Option String := none
  count : Nat := 0
  progress : Option Progress := none
  clock : Nat := 0
  upstream : Nat := 0
deriving Inhabited

/-- `add_message_to_conversation` (`conversation.py` lines 76–87): creates the
list when absent, then appends. -/
def add_message_to_conversation (st : St) (m : Msg) : St :=
  { st with conv := some (st.conv.getD [] ++ [m]) }

/-- `set_task_status` (`conversation.py` lines 101–109). -/
def set_task_status (st : St) (s : String) : St :=
  { st with task := some s }

/-- `reset_auto_execute_count` (`conversation.py` lines 139–146). -/
def reset_auto_execute_count (st : St) : St :=
  { st with count := 0 }

/-- `increment_auto_execute_count` (`conversation.py` lines 123–137): bumps
the count and returns the new value. -/
def increment_auto_execute_count (st : St) : Nat × St :=
  (st.count + 1, { st with count := st.count + 1 })

/-- Modelled from the spec: `update_progress` is imported throughout from
`app.api.services.conversation` but is missing from that module's copy under
`src/`.  Spec §4.3 gives overwrite semantics for the snapshot; §4.4/§8 pin
that the status it records is the task status pollers observe (`paused`,
`completed`, `error`, …) and that after `resume` the status is `running`; the
repository's tests (`tests/test_auto_execute.py`) assert
`auto_execute_tasks[cid]` equals the last progress status of a run
(`"completed"`, `"error"`) and equals `"running"` right after the resume
route's `update_progress(..., "resuming", ...)`. -/
def update_progress (st : St) (status step message : String) (pct : Int) : St :=
  { st with
      progress := some ⟨status, step, message, pct, st.clock⟩,
      task := some (if status == "resuming" then "running" else status),
      clock := st.clock + 1 }

/-- The in-place replacement pattern
`if cid in conversations: conversations[cid] = [m for m in ... if p m]`. -/
def filter_conversation (st : St) (p : Msg → Bool) : St :=
  { st with conv := st.conv.map (fun h => h.filter p) }

/-- An `HTTPException(status_code, detail)`. -/
structure HttpErr where
  status_code : Nat
  detail : String
deriving DecidableEq, Inhabited

/-- A `{"status": ..., "message": ...}` JSON body returned by the
cancel/resume routes. -/
structure RouteOk where
  status : String
  message : String
deriving DecidableEq, Inhabited

/-- `str(HTTPException(code, detail))` as interpolated by the blanket
`except Exception as e: raise HTTPException(status_code=500, detail=str(e))`
handlers (starlette renders `"{code}: {detail}"`). -/
def httpExceptionStr (code : Nat) (detail : String) : String :=
  toString code ++ ": " ++ detail

/-- The system notice appended by the cancel route
(`routes/conversation.py` lines 252–258). -/
def cancel_notice : Msg :=
  { role := "system", content := [textBlock "Automatic tool execution cancelled by user"] }

/-- Embedding of the route `cancel_auto_execution`
(`routes/conversation.py` lines 237–264).  The body runs inside
`try: ... except Exception: raise HTTPException(500, str(e))`, so the 404
raised for a missing conversation is re-raised as a 500. -/
def cancel_auto_execution (st : St) : St × Except HttpErr RouteOk :=
  match st.conv with
  | none => (st, .error ⟨500, httpExceptionStr 404 "Conversation not found"⟩)
  | some _ =>
      let st := set_task_status st "cancelled"
      let st := add_message_to_conversation st cancel_notice
      (st, .ok ⟨"success", "Automatic tool execution cancelled"⟩)

/-- The system notice appended by the resume route
(`routes/conversation.py` lines 188–195). -/
def resume_notice : Msg :=
  { role := "system", content := [textBlock "Automatic tool execution resumed by user"] }

/-- Embedding of the route `resume_auto_execution`
(`routes/conversation.py` lines 152–235).  The whole body runs inside
`try: ... except Exception as e: raise HTTPException(500, str(e))`, and
`HTTPException` is an `Exception`, so every `HTTPException(404/400, ...)`
raised in the body is re-raised with status code 500.  The middle component
of the result models `background_tasks.add_task(process_tool_calls_and_continue,
tool_calls, ...)`: the batch the engine is restarted with (with
`auto_execute_tools=True`). -/
def resume_auto_execution (st : St) : St × Option (List ToolCall) × Except HttpErr RouteOk :=
  match st.conv with
  | none => (st, none, .error ⟨500, httpExceptionStr 404 "Conversation not found"⟩)
  | some _ =>
      if st.task != some "paused" then
        (st, none, .error ⟨500, httpExceptionStr 400
          ("Cannot resume execution, status is " ++ pyStr st.task)⟩)
      else
        let st := update_progress st "resuming" "resuming_execution"
          "Resuming automatic tool execution..." 85
        let st := reset_auto_execute_count st
        let st := add_message_to_conversation st resume_notice
        let history := st.conv.getD []
        match (history.filter (fun m => m.role == "assistant")).getLast? with
        | none => (st, none, .error ⟨500, httpExceptionStr 400 "No assistant messages found"⟩)
        | some last_assistant_message =>
            let tool_calls := extract_tool_calls last_assistant_message.content
            if tool_calls.isEmpty then
              (st, none, .error ⟨500, httpExceptionStr 400
                "No tool calls found in last assistant message"⟩)
            else
              (st, some tool_calls, .ok ⟨"success", "Automatic tool execution resumed"⟩)

/-- The display filtering of `get_conversation_messages`
(`routes/conversation.py` lines 87–90). -/
def display_history (history : List Msg) : List Msg :=
  if history.any (fun m => m.is_placeholder || m.is_temporary) then
    history.filter (fun m => !m.is_placeholder && !m.is_temporary)
  else history

/-- Embedding of the messages component of the route
`get_conversation_messages` (`routes/conversation.py` lines 36–98); the 404
for a missing conversation is raised before the `try` block, so it is a real
404 here.  The status/progress/root fields of the response are orthogonal to
the claims and omitted. -/
def get_conversation_messages (st : St) : Except HttpErr (List Msg) :=
  match st.conv with
  | none => .error ⟨404, "Conversation not found"⟩
  | some history => .ok (display_history history)

/-- The system message appended when the auto-execution ceiling is exceeded
(`tool_execution.py` lines 466–472). -/
def pause_message : Msg :=
  { role := "system",
    content := [textBlock ("Automatic tool execution limit (10) reached. " ++
      "Please confirm if you want to continue with automatic execution by " ++
      "clicking the 'Continue' button.")] }

/-- One iteration of the per-tool loop of `process_tool_calls_and_continue`
(`tool_execution.py` lines 121–166): emit the transient `is_status` start
message, dispatch the single call through `auto_execute_tool_calls` (which is
`process_tool_calls` plus an exception guard that cannot fire in the pure
model), remove the start message, emit the transient `is_temporary`
completion message, and advance progress.  The per-iteration `except` branch
(lines 168–185) is unreachable here: every dict key it touches exists in the
modelled tool calls and `auto_execute_tool_calls` already swallows tool
exceptions. -/
def run_one_tool (runTool : ToolCall → Except String Json) (st : St) (tc : ToolCall)
    (i n : Nat) : St × List ToolResultEntry :=
  let startId := MsgId.toolStart (pyStr tc.id) st.clock
  let st := { st with clock := st.clock + 1 }
  let st := add_message_to_conversation st
    { role := "system",
      content := [textBlock ("Executing tool: " ++ pyStr tc.name ++ "...")],
      id := some startId, is_status := true }
  let single_result := process_tool_calls runTool true [tc]
  let st := filter_conversation st (fun m => !(m.is_status && m.id == some startId))
  let completeId := MsgId.toolComplete (pyStr tc.id) st.clock
  let st := { st with clock := st.clock + 1 }
  let st := add_message_to_conversation st
    { role := "system",
      content := [textBlock ("Tool " ++ pyStr tc.name ++ " executed successfully")],
      id := some completeId, is_status := true, is_temporary := true }
  let st := update_progress st "executing_tool"
    ("tool_" ++ toString (i + 1) ++ "_of_" ++ toString n)
    ("Completed tool " ++ toString (i + 1) ++ " of " ++ toString n ++ ": " ++ pyStr tc.name)
    (25 + (25 * ((i : Int) + 1)) / (n : Int))
  (st, single_result)

/-- The whole per-tool loop (`tool_execution.py` lines 120–185): `i` is the
enumeration index, `n` is `len(tool_calls)`, `acc` the accumulated
`tool_results`. -/
def run_batch (runTool : ToolCall → Except String Json) :
    St → List ToolCall → Nat → Nat → List ToolResultEntry → St × List ToolResultEntry
  | st, [], _, _, acc => (st, acc)
  | st, tc :: rest, i, n, acc =>
      let p := run_one_tool runTool st tc i n
      run_batch runTool p.1 rest (i + 1) n (acc ++ p.2)

/-- The tail of a cycle after the model reply `blocks` has been received
(`tool_execution.py` lines 360–493): remove the placeholder, record the
reply, re-check cancellation, extract new tool calls, and either finish,
pause at the ceiling, or hand back the next batch (`some newCalls`) for the
recursive call. -/
def process_reply (autoExec : Bool) (st : St) (pid : MsgId) (blocks : List Block) :
    St × Option (List ToolCall) :=
  let st := filter_conversation st (fun m => !(m.is_placeholder && m.id == some pid))
  let st := update_progress st "processing_response" "processing_claude_response"
    "Processing Claude's response..." 75
  let st := add_message_to_conversation st { role := "assistant", content := blocks }
  if st.task == some "cancelled" then (st, none)
  else
    let new_tool_calls := extract_tool_calls blocks
    let st :=
      if new_tool_calls.isEmpty then
        update_progress st "completed" "conversation_complete" "Conversation complete" 100
      else
        update_progress st "preparing_tool_execution" "new_tool_calls"
          ("Preparing to execute " ++ toString new_tool_calls.length ++ " new tool" ++
            (if new_tool_calls.length > 1 then "s" else "") ++ "...") 80
    if autoExec && !new_tool_calls.isEmpty then
      let p := increment_auto_execute_count st
      let current_count := p.1
      let st := p.2
      if current_count > 10 then
        let st := add_message_to_conversation st pause_message
        let st := update_progress st "paused" "auto_execution_limit"
          "Auto-execution limit reached. Waiting for user to continue..." 90
        (st, none)
      else (st, some new_tool_calls)
    else (st, none)

/-- The placeholder insertion and upstream call (`tool_execution.py` lines
238–393): `modelReply k` is the outcome of the `k`-th Claude API call of the
run (the request assembly — stale-history snapshot, `fix_messages`, system
prompt — does not influence the oracle's answer and is modelled separately by
`fix_messages`). -/
def call_model (modelReply : Nat → Except String (List Block)) (autoExec : Bool)
    (st : St) : St × Option (List ToolCall) :=
  let pid := MsgId.placeholder st.clock
  let st := { st with clock := st.clock + 1 }
  let st := add_message_to_conversation st
    { role := "assistant", content := [textBlock "Thinking..."],
      id := some pid, is_placeholder := true }
  let k := st.upstream
  let st := { st with upstream := k + 1 }
  match modelReply k with
  | .error e =>
      let st := add_message_to_conversation st
        { role := "system", content := [textBlock ("Error calling Claude API: " ++ e)] }
      let st := update_progress st "error" "api_call_error"
        ("Error from Claude API: " ++ e) 0
      (st, none)
  | .ok blocks => process_reply autoExec st pid blocks

/-- Steps 3–5 of a cycle (`tool_execution.py` lines 187–236): the post-batch
cancellation checkpoint, temporary-message strip, tool-result bundling, and
the pre-call cancellation checkpoint. -/
def after_batch (modelReply : Nat → Except String (List Block)) (autoExec : Bool)
    (st : St) (tool_results : List ToolResultEntry) : St × Option (List ToolCall) :=
  if st.task == some "cancelled" then (st, none)
  else
    let tool_result_blocks := format_tool_results_for_claude tool_results
    let st := filter_conversation st (fun m => !m.is_temporary)
    let st := add_message_to_conversation st { role := "user", content := tool_result_blocks }
    let st := update_progress st "waiting_for_claude" "waiting_for_response"
      "Tool execution complete. Waiting for Claude's response..." 50
    if st.task == some "cancelled" then (st, none)
    else call_model modelReply autoExec st

/-- One cycle of `process_tool_calls_and_continue` (`tool_execution.py` lines
87–493) without the recursive tail call: the second component is `some
newCalls` exactly when line 485 would recurse with `newCalls`. -/
def cycle (runTool : ToolCall → Except String Json)
    (modelReply : Nat → Except String (List Block)) (autoExec : Bool)
    (st : St) (tool_calls : List ToolCall) : St × Option (List ToolCall) :=
  match tool_calls with
  | [] => (st, none)
  | tc0 :: _ =>
      match st.conv with
      | none => (st, none)
      | some _ =>
          let st := if st.task == none then set_task_status st "running" else st
          if st.task == some "cancelled" then (st, none)
          else
            let st := update_progress st "executing_tool" "tool_execution"
              ("Executing tool: " ++ pyStr tc0.name ++ "...") 25
            let p := run_batch runTool st tool_calls 0 tool_calls.length []
            after_batch modelReply autoExec p.1 p.2

/-- The recursion of `process_tool_calls_and_continue` flattened to a loop;
`fuel` bounds the number of cycles (the code's own ceiling makes ≤ 11 cycles
possible for any run that starts with `count = 0`, so any `fuel ≥ 11` is
unreachable headroom — the claims quantify over such fuels). -/
def engine_run (runTool : ToolCall → Except String Json)
    (modelReply : Nat → Except String (List Block)) (autoExec : Bool) :
    Nat → St → List ToolCall → St
  | 0, st, _ => st
  | fuel + 1, st, tool_calls =>
      match cycle runTool modelReply autoExec st tool_calls with
      | (st', none) => st'
      | (st', some newCalls) => engine_run runTool modelReply autoExec fuel st' newCalls

/-- The `finally` block (`tool_execution.py` lines 533–543): each unwinding
frame applies it, but after the first firing the status is `"completed"` and
the remaining frames skip, so the net effect is one conditional update. -/
def apply_finally (st : St) : St :=
  match st.task with
  | none => st
  | some s =>
      if s == "cancelled" || s == "error" || s == "paused" || s == "completed" then st
      else update_progress st "completed" "execution_complete" "Execution complete" 100

/-- Embedding of `process_tool_calls_and_continue` (`tool_execution.py` lines
66–543) as a complete run: cycles chained by the recursive call, then the
`finally` blocks. -/
def process_tool_calls_and_continue (runTool : ToolCall → Except String Json)
    (modelReply : Nat → Except String (List Block)) (autoExec : Bool)
    (fuel : Nat) (st : St) (tool_calls : List ToolCall) : St :=
  apply_finally (engine_run runTool modelReply autoExec fuel st tool_calls)

/-- Claim C10 as stated, following the claim's words: one result per call in
input order, the result's `tool_use_id` equal to the call's id whenever the
call carries one, and a synthetically generated placeholder id (the code's
`unknown_<k>` / `error_<k>` forms) otherwise. -/
def c10_claim (runTool : ToolCall → Except String Json) (cidP : Bool) : Prop :=
  ∀ calls : List ToolCall,
    (process_tool_calls runTool cidP calls).length = calls.length ∧
    ∀ i tc, calls.get? i = some tc →
      ∃ r, (process_tool_calls runTool cidP calls).get? i = some r ∧
        (∀ s, tc.id = some s → r.tool_use_id = s) ∧
        (tc.id = none →
          r.tool_use_id = "unknown_" ++ toString i ∨ r.tool_use_id = "error_" ++ toString i)

/-- Claim C2 as stated, following the claim's words (its necessary core): in
the repaired list, every assistant message with `toolInvocation` blocks is
immediately followed by a user message holding a `toolResult` for every
invocation id of that assistant message. -/
def c2_claim : Prop :=
  ∀ msgs : List Msg, ∀ i m, (fix_messages msgs).get? i = some m →
    msg_has_tool_use m = true →
    ∃ m2, (fix_messages msgs).get? (i + 1) = some m2 ∧ m2.role = "user" ∧
      ∀ b ∈ m.content, b.type = some "tool_use" →
        ∃ b2 ∈ m2.content, b2.type = some "tool_result" ∧ b2.tool_use_id = b.id

/-- Counterexample input for claim C2: an assistant message with two
`tool_use` blocks (ids `a`, `b`). -/
def c2_assistant_msg : Msg :=
  { role := "assistant",
    content := [{ type := some "tool_use", id := some "a" },
                { type := some "tool_use", id := some "b" }] }

/-- Counterexample input for claim C2: the following user message answers
only invocation `a`. -/
def c2_user_msg : Msg :=
  { role := "user",
    content := [{ type := some "tool_result", tool_use_id := some "a",
                  content := some "r" }] }

/-- Counterexample input for claim C2. -/
def c2_input : List Msg := [c2_assistant_msg, c2_user_msg]

/-- Claim C4 as stated, following the claim's words: for every existing
conversation, cancelling twice has the same observable effect (task status,
conversation history, returned value) as cancelling once, and cancelling a
`completed` conversation is a no-op. -/
def c4_claim : Prop :=
  ∀ st : St, st.conv.isSome →
    ((cancel_auto_execution (cancel_auto_execution st).1).1 = (cancel_auto_execution st).1 ∧
     (cancel_auto_execution (cancel_auto_execution st).1).2 = (cancel_auto_execution st).2) ∧
    (st.task = some "completed" → (cancel_auto_execution st).1 = st)

/-- Witness input: the assistant message a paused conversation ends with. -/
def c5_last_assistant : Msg :=
  { role := "assistant",
    content := [{ type := some "tool_use", id := some "t1", name := some "web_search" }] }

/-- Witness input: a paused conversation at the auto-execute ceiling. -/
def c5_paused_state : St :=
  { conv := some [c5_last_assistant], task := some "paused", count := 11 }

/-- Witness input: a model reply block carrying a further tool invocation. -/
def c1_reply_block : Block :=
  { type := some "tool_use", id := some "t1", name := some "web_search" }

/-- Witness input: the initial tool call handed to the engine. -/
def c1_call : ToolCall := { id := some "c0", name := some "web_search" }

/-- Witness input: a fresh conversation state. -/
def c1_start : St := { conv := some [], task := none, count := 0 }

/-! ## Characterization of the dispatch loop -/

/-- Characterization of the dispatch loop: each input call contributes exactly
one result, in input order, and the placeholder index is the call's position. -/
theorem process_tool_calls_go_spec (runTool : ToolCall → Except String Json)
    (cidP : Bool) (calls : List ToolCall) (acc : List ToolResultEntry) :
    process_tool_calls_go runTool cidP calls acc =
      acc ++ results_from runTool cidP acc.length calls := by
  induction calls generalizing acc with
  | nil => simp [process_tool_calls_go, results_from]
  | cons tc rest ih =>
      rw [process_tool_calls_go, ih]
      simp [results_from]

/-- `process_tool_calls` yields exactly one result per call, in input order. -/
theorem process_tool_calls_spec (runTool : ToolCall → Except String Json)
    (cidP : Bool) (calls : List ToolCall) :
    process_tool_calls runTool cidP calls = results_from runTool cidP 0 calls := by
  have h := process_tool_calls_go_spec runTool cidP calls []
  simpa [process_tool_calls] using h

theorem results_from_length (runTool : ToolCall → Except String Json) (cidP : Bool)
    (k : Nat) (calls : List ToolCall) :
    (results_from runTool cidP k calls).length = calls.length := by
  induction calls generalizing k with
  | nil => simp [results_from]
  | cons tc rest ih => simp [results_from, ih]

theorem results_from_get? (runTool : ToolCall → Except String Json) (cidP : Bool)
    (k : Nat) (calls : List ToolCall) (i : Nat) :
    (results_from runTool cidP k calls).get? i =
      (calls.get? i).map (fun tc => result_for runTool cidP tc (k + i)) := by
  induction calls generalizing k i with
  | nil => simp [results_from]
  | cons tc rest ih =>
      cases i with
      | zero => simp [results_from]
      | succ j =>
          have harith : k + 1 + j = k + (j + 1) := by omega
          simp only [results_from, List.get?_cons_succ, ih, harith]

theorem process_tool_calls_length (runTool : ToolCall → Except String Json)
    (cidP : Bool) (calls : List ToolCall) :
    (process_tool_calls runTool cidP calls).length = calls.length := by
  rw [process_tool_calls_spec, results_from_length]


theorem process_tool_calls_get? (runTool : ToolCall → Except String Json) (cidP : Bool)
    (calls : List ToolCall) (i : Nat) :
    (process_tool_calls runTool cidP calls).get? i =
      (calls.get? i).map (fun tc => result_for runTool cidP tc i) := by
  rw [process_tool_calls_spec, results_from_get?]
  simp

/-- The content written by `result_for` is always `json.dumps` of some value. -/
theorem result_for_content_dumps (runTool : ToolCall → Except String Json) (cidP : Bool)
    (tc : ToolCall) (k : Nat) :
    ∃ j : Json, (result_for runTool cidP tc k).content = Json.dumps j := by
  unfold result_for
  cases hd : dispatch_result runTool cidP tc with
  | ok res =>
      cases tc.id with
      | none => exact ⟨res, rfl⟩
      | some s =>
          refine ⟨res, ?_⟩
          rcases eq_or_ne s "" with hs | hs <;> simp [hs]
  | error e =>
      cases tc.id with
      | none => exact ⟨dispatch_error_envelope e, rfl⟩
      | some s => exact ⟨dispatch_error_envelope e, rfl⟩

/-- A name outside the `TOOL_FUNCTIONS` registry matches no dispatch branch. -/
theorem known_branch_eq_false_of_not_mem (cidP : Bool) (tc : ToolCall) (n : String)
    (hn : tc.name = some n) (hmem : n ∉ TOOL_FUNCTIONS_names) :
    known_branch cidP tc = false := by
  simp only [TOOL_FUNCTIONS_names, List.mem_cons, List.not_mem_nil, or_false,
    not_or] at hmem
  obtain ⟨h1, h2, h3, h4, h5, h6⟩ := hmem
  simp [known_branch, hn, h1, h2, h3, h4, h5, h6]

/-- Claim C3: the dispatcher converts unknown tool names and exceptions thrown
during dispatch into error-envelope `ToolResult`s, never raises, never aborts
the batch, and processes the calls in input order (one result per call at the
call's position). -/
theorem dispatcher_error_isolation (runTool : ToolCall → Except String Json)
    (cidP : Bool) (calls : List ToolCall) :
    (process_tool_calls runTool cidP calls).length = calls.length ∧
    (∀ i tc, calls.get? i = some tc →
      (process_tool_calls runTool cidP calls).get? i =
        some (result_for runTool cidP tc i)) ∧
    (∀ i tc n, calls.get? i = some tc → tc.name = some n → n ∉ TOOL_FUNCTIONS_names →
      (result_for runTool cidP tc i).content =
        Json.dumps (Json.obj [("status", Json.str "error"),
          ("message", Json.str ("Unknown tool: " ++ n))])) ∧
    (∀ i tc e, calls.get? i = some tc → dispatch_result runTool cidP tc = Except.error e →
      (result_for runTool cidP tc i).content = Json.dumps (dispatch_error_envelope e)) := by
  refine ⟨process_tool_calls_length _ _ _, ?_, ?_, ?_⟩
  · intro i tc h
    rw [process_tool_calls_get?, h]
    rfl
  · intro i tc n h hn hmem
    have hkb := known_branch_eq_false_of_not_mem cidP tc n hn hmem
    cases hid : tc.id with
    | none => simp [result_for, dispatch_result, hkb, hn, pyStr, hid]
    | some s =>
        rcases eq_or_ne s "" with hs | hs <;>
          simp [result_for, dispatch_result, hkb, hn, pyStr, hid, hs]
  · intro i tc e h hd
    unfold result_for
    rw [hd]
    cases tc.id <;> rfl

theorem dispatcher_error_isolation_witness :
    (process_tool_calls (fun _ => Except.error "boom") true
      [{ id := some "a", name := some "bogus" }, { id := some "b", name := some "web_search" }]).length = 2 ∧
    (result_for (fun _ => Except.error "boom") true { id := some "a", name := some "bogus" } 0).content =
      Json.dumps (Json.obj [("status", Json.str "error"),
        ("message", Json.str "Unknown tool: bogus")]) ∧
    (result_for (fun _ => Except.error "boom") true { id := some "b", name := some "web_search" } 1).content =
      Json.dumps (dispatch_error_envelope "boom") := by
  obtain ⟨h1, h2, h3, h4⟩ := dispatcher_error_isolation (fun _ => Except.error "boom") true
    [{ id := some "a", name := some "bogus" }, { id := some "b", name := some "web_search" }]
  refine ⟨h1, h3 0 { id := some "a", name := some "bogus" } "bogus" rfl rfl (by decide), ?_⟩
  exact h4 1 { id := some "b", name := some "web_search" } "boom" rfl rfl

/-- Claim C9: every `ToolResult` produced by the dispatcher has a
`json.dumps`-encoded string as its `content`, whatever the underlying tool
returned. -/
theorem tool_result_content_json_encoded (runTool : ToolCall → Except String Json)
    (cidP : Bool) (calls : List ToolCall) :
    ∀ r ∈ process_tool_calls runTool cidP calls, ∃ j : Json, r.content = Json.dumps j := by
  intro r hr
  obtain ⟨i, hi⟩ := List.get?_of_mem hr
  rw [process_tool_calls_get?] at hi
  obtain ⟨tc, -, htc⟩ := Option.map_eq_some'.mp hi
  rw [← htc]
  exact result_for_content_dumps runTool cidP tc i

theorem tool_result_content_json_encoded_witness :
    ∃ j : Json, (ToolResultEntry.mk "unknown_0" (Json.dumps (Json.obj
      [("status", Json.str "error"), ("message", Json.str "Unknown tool: zzz")]))).content =
      Json.dumps j :=
  tool_result_content_json_encoded (fun _ => Except.ok Json.null) true
    [{ id := some "", name := some "zzz" }] _ (by decide)

/-- Claim C10 as stated is false: a call that carries the (empty-string) id
`""` and whose dispatch does not raise is given the synthetic placeholder
`unknown_0` instead of its carried id, because `process_tool_calls` tests
`if tool_id:` (truthiness), not key presence, on the success path. -/
theorem result_id_claim_counterexample : ¬ c10_claim (fun _ => Except.ok Json.null) true := by
  intro h
  obtain ⟨-, h2⟩ := h [{ id := some "", name := some "zzz" }]
  obtain ⟨r, hr, hid, -⟩ := h2 0 { id := some "", name := some "zzz" } rfl
  have hval : process_tool_calls (fun _ => Except.ok Json.null) true
      [{ id := some "", name := some "zzz" }] =
      [⟨"unknown_0", Json.dumps (Json.obj [("status", Json.str "error"),
        ("message", Json.str "Unknown tool: zzz")])⟩] := by decide
  rw [hval] at hr
  simp only [List.get?_cons_zero, Option.some.injEq] at hr
  have h0 := hid "" rfl
  rw [← hr] at h0
  exact absurd h0 (by decide)

/-- Claim C10, amended: one result per call in input order; the carried id is
used when it is non-empty; a missing id gets the `unknown_<i>` / `error_<i>`
placeholder; but a carried empty id gets the `unknown_<i>` placeholder when
dispatch does not raise (truthiness test) and is used verbatim when dispatch
raises (presence test). -/
theorem result_id_assignment_amended (runTool : ToolCall → Except String Json)
    (cidP : Bool) (calls : List ToolCall) :
    (process_tool_calls runTool cidP calls).length = calls.length ∧
    ∀ i tc, calls.get? i = some tc →
      (process_tool_calls runTool cidP calls).get? i =
        some (result_for runTool cidP tc i) ∧
      (∀ s, tc.id = some s → s ≠ "" →
        (result_for runTool cidP tc i).tool_use_id = s) ∧
      (∀ res, dispatch_result runTool cidP tc = Except.ok res →
        (tc.id = none ∨ tc.id = some "") →
        (result_for runTool cidP tc i).tool_use_id = "unknown_" ++ toString i) ∧
      (∀ e, dispatch_result runTool cidP tc = Except.error e →
        (∀ s, tc.id = some s → (result_for runTool cidP tc i).tool_use_id = s) ∧
        (tc.id = none →
          (result_for runTool cidP tc i).tool_use_id = "error_" ++ toString i)) := by
  refine ⟨process_tool_calls_length _ _ _, ?_⟩
  intro i tc h
  refine ⟨by rw [process_tool_calls_get?, h]; rfl, ?_, ?_, ?_⟩
  · intro s hs hne
    unfold result_for
    cases hd : dispatch_result runTool cidP tc with
    | ok res => simp [hs, hne]
    | error e => simp [hs]
  · intro res hd hcases
    unfold result_for
    rw [hd]
    rcases hcases with hnone | hempty
    · simp [hnone]
    · simp [hempty]
  · intro e hd
    constructor
    · intro s hs
      unfold result_for
      rw [hd]
      simp [hs]
    · intro hnone
      unfold result_for
      rw [hd]
      simp [hnone]

theorem result_id_assignment_amended_witness :
    (process_tool_calls (fun _ => Except.ok Json.null) true
      [{ id := some "", name := some "zzz" }]).length = 1 ∧
    (result_for (fun _ => Except.ok Json.null) true
      ({ id := some "", name := some "zzz" } : ToolCall) 0).tool_use_id = "unknown_0" := by
  obtain ⟨h1, h2⟩ := result_id_assignment_amended (fun _ => Except.ok Json.null) true
    [{ id := some "", name := some "zzz" }]
  obtain ⟨-, -, hok, -⟩ := h2 0 { id := some "", name := some "zzz" } rfl
  exact ⟨h1, hok (Json.obj [("status", Json.str "error"),
    ("message", Json.str "Unknown tool: zzz")]) rfl (Or.inr rfl)⟩

/-! ## History repair -/

/-- Unfolding equation: assistant-with-`tool_use` message whose follower is a
user message with a `tool_result` block. -/
theorem fix_go_consume (m m2 : Msg) (rest2 : List Msg)
    (hm : msg_has_tool_use m = true)
    (hc : (m2.role == "user" && m2.content.any fun b => b.type == some "tool_result") = true) :
    fix_messages_go (m :: m2 :: rest2) = m :: m2 :: fix_messages_go rest2 := by
  rw [fix_messages_go.eq_def]
  simp [hm, hc]

/-- Unfolding equation: assistant-with-`tool_use` message whose follower does
not pass the look-ahead test. -/
theorem fix_go_synth (m m2 : Msg) (rest2 : List Msg)
    (hm : msg_has_tool_use m = true)
    (hc : (m2.role == "user" && m2.content.any fun b => b.type == some "tool_result") = false) :
    fix_messages_go (m :: m2 :: rest2) =
      m :: append_synth m (fix_messages_go (m2 :: rest2)) := by
  rw [fix_messages_go.eq_def]
  simp [hm, hc]

/-- Unfolding equation: a final assistant-with-`tool_use` message. -/
theorem fix_go_single (m : Msg) (hm : msg_has_tool_use m = true) :
    fix_messages_go [m] = m :: append_synth m [] := by
  rw [fix_messages_go.eq_def]
  simp [hm]

/-- Unfolding equation: any message without `tool_use` blocks is copied. -/
theorem fix_go_no_tool_use (m : Msg) (rest : List Msg)
    (hm : msg_has_tool_use m = false) :
    fix_messages_go (m :: rest) = m :: fix_messages_go rest := by
  rw [fix_messages_go.eq_def]
  simp [hm]

/-- An assistant message with a `tool_use` block yields a non-empty
`empty_results` list. -/
theorem synthetic_results_ne_nil (m : Msg) (hm : msg_has_tool_use m = true) :
    (synthetic_results m).isEmpty = false := by
  unfold msg_has_tool_use at hm
  rw [Bool.and_eq_true] at hm
  obtain ⟨-, hany⟩ := hm
  obtain ⟨b, hb, hbty⟩ := List.any_eq_true.mp hany
  unfold synthetic_results
  rw [List.isEmpty_eq_false]
  simp only [ne_eq, List.map_eq_nil_iff, List.filter_eq_nil_iff]
  intro hall
  exact absurd hbty (by simpa using hall b hb)

/-- Every synthesized block is a `tool_result` block, so the synthesized user
message passes the repair pass's own look-ahead test. -/
theorem synthetic_results_any_tool_result (m : Msg) (hm : msg_has_tool_use m = true) :
    (synthetic_results m).any (fun b => b.type == some "tool_result") = true := by
  have hne := synthetic_results_ne_nil m hm
  rw [List.isEmpty_eq_false] at hne
  obtain ⟨b, hb⟩ := List.exists_mem_of_ne_nil _ hne
  refine List.any_eq_true.mpr ⟨b, hb, ?_⟩
  unfold synthetic_results at hb
  obtain ⟨b0, -, hb0⟩ := List.mem_map.mp hb
  rw [← hb0]
  rfl

/-- A user-role message is never counted as a `tool_use` message by the
repair pass. -/
theorem msg_has_tool_use_of_user (m : Msg) (h : m.role = "user") :
    msg_has_tool_use m = false := by
  unfold msg_has_tool_use
  simp [h]

/-- Pairing invariant of the repaired list: after the scan, every assistant
message carrying a `tool_use` block is immediately followed by a user message
containing at least one `tool_result` block. -/
theorem fix_go_pairing (l : List Msg) :
    ∀ i m, (fix_messages_go l).get? i = some m → msg_has_tool_use m = true →
      ∃ m2, (fix_messages_go l).get? (i + 1) = some m2 ∧ m2.role = "user" ∧
        m2.content.any (fun b => b.type == some "tool_result") = true := by
  induction l using fix_messages_go.induct with
  | case1 =>
      intro i m hget hhas
      simp [fix_messages_go] at hget
  | case2 m hm m2 rest2 hc ih =>
      intro i x hget hhas
      rw [fix_go_consume m m2 rest2 hm hc] at hget ⊢
      match i with
      | 0 =>
          simp only [List.get?_cons_zero, Option.some.injEq] at hget
          rw [Bool.and_eq_true] at hc
          exact ⟨m2, rfl, by simpa using hc.1, hc.2⟩
      | 1 =>
          simp only [List.get?_cons_succ, List.get?_cons_zero, Option.some.injEq] at hget
          subst hget
          rw [Bool.and_eq_true] at hc
          rw [msg_has_tool_use_of_user m2 (by simpa using hc.1)] at hhas
          exact absurd hhas (by simp)
      | (j + 2) =>
          simpa using ih j x (by simpa using hget) hhas
  | case3 m hm m2 rest2 hc ih =>
      intro i x hget hhas
      have hc' : (m2.role == "user" && m2.content.any fun b => b.type == some "tool_result") = false :=
        Bool.not_eq_true _ ▸ eq_false_of_ne_true hc
      have hsyn := synthetic_results_ne_nil m hm
      rw [fix_go_synth m m2 rest2 hm hc'] at hget ⊢
      rw [append_synth, if_neg (by simp [hsyn])] at hget ⊢
      match i with
      | 0 =>
          exact ⟨{ role := "user", content := synthetic_results m }, rfl, rfl,
            synthetic_results_any_tool_result m hm⟩
      | 1 =>
          simp only [List.get?_cons_succ, List.get?_cons_zero, Option.some.injEq] at hget
          subst hget
          simp [msg_has_tool_use] at hhas
      | (j + 2) =>
          simpa using ih j x (by simpa using hget) hhas
  | case4 m hm =>
      intro i x hget hhas
      have hsyn := synthetic_results_ne_nil m hm
      rw [fix_go_single m hm] at hget ⊢
      rw [append_synth, if_neg (by simp [hsyn])] at hget ⊢
      match i with
      | 0 =>
          exact ⟨{ role := "user", content := synthetic_results m }, rfl, rfl,
            synthetic_results_any_tool_result m hm⟩
      | 1 =>
          simp only [List.get?_cons_succ, List.get?_cons_zero, Option.some.injEq] at hget
          subst hget
          simp [msg_has_tool_use] at hhas
      | (j + 2) =>
          simp at hget
  | case5 m rest hm ih =>
      intro i x hget hhas
      have hm' : msg_has_tool_use m = false := Bool.not_eq_true _ ▸ eq_false_of_ne_true hm
      rw [fix_go_no_tool_use m rest hm'] at hget ⊢
      match i with
      | 0 =>
          simp only [List.get?_cons_zero, Option.some.injEq] at hget
          subst hget
          rw [hm'] at hhas
          exact absurd hhas (by simp)
      | (j + 1) =>
          simpa using ih j x (by simpa using hget) hhas

/-- `append_synth` prepends at most one message, so it commutes with a later
append. -/
theorem append_synth_append (p : Msg) (a b : List Msg) :
    append_synth p (a ++ b) = append_synth p a ++ b := by
  unfold append_synth
  split <;> simp

/-- The scan processes a prefix independently of what follows an assistant
message `m` that the look-ahead can never consume (`m.role ≠ "user"`):
the repaired list is a repaired prefix followed by the repair of `m :: rest`. -/
theorem fix_go_append (m : Msg) (rest : List Msg) (hmu : (m.role == "user") = false) :
    ∀ (n : Nat) (pre : List Msg), pre.length ≤ n →
      ∃ out, fix_messages_go (pre ++ m :: rest) = out ++ fix_messages_go (m :: rest) := by
  intro n
  induction n with
  | zero =>
      intro pre hlen
      have hpre : pre = [] := List.length_eq_zero.mp (Nat.le_zero.mp hlen)
      subst hpre
      exact ⟨[], by simp⟩
  | succ n ih =>
      intro pre hlen
      match pre with
      | [] => exact ⟨[], by simp⟩
      | p :: pre' =>
          by_cases hp : msg_has_tool_use p = true
          · match pre' with
            | [] =>
                have hc : (m.role == "user" && m.content.any fun b => b.type == some "tool_result") = false := by
                  rw [hmu]
                  rfl
                refine ⟨p :: append_synth p [], ?_⟩
                have heq := fix_go_synth p m rest hp hc
                simp only [List.cons_append, List.nil_append] at heq ⊢
                rw [heq]
                have h2 := append_synth_append p [] (fix_messages_go (m :: rest))
                simp only [List.nil_append] at h2
                rw [h2]
            | q :: pre'' =>
                by_cases hcq : (q.role == "user" && q.content.any fun b => b.type == some "tool_result") = true
                · obtain ⟨out', hout⟩ := ih pre'' (by simp at hlen; omega)
                  refine ⟨p :: q :: out', ?_⟩
                  have heq := fix_go_consume p q (pre'' ++ m :: rest) hp hcq
                  simp only [List.cons_append] at heq ⊢
                  rw [heq, hout]
                · have hcq' : (q.role == "user" && q.content.any fun b => b.type == some "tool_result") = false :=
                    Bool.not_eq_true _ ▸ eq_false_of_ne_true hcq
                  obtain ⟨out', hout⟩ := ih (q :: pre'') (by simp at hlen ⊢; omega)
                  refine ⟨p :: append_synth p out', ?_⟩
                  have heq := fix_go_synth p q (pre'' ++ m :: rest) hp hcq'
                  simp only [List.cons_append] at heq hout ⊢
                  rw [heq, hout, append_synth_append]
          · have hp' : msg_has_tool_use p = false := Bool.not_eq_true _ ▸ eq_false_of_ne_true hp
            obtain ⟨out', hout⟩ := ih pre' (by simp at hlen; omega)
            refine ⟨p :: out', ?_⟩
            have heq := fix_go_no_tool_use p (pre' ++ m :: rest) hp'
            simp only [List.cons_append] at heq hout ⊢
            rw [heq, hout]

/-- Claim C2 is false as stated: with an assistant message carrying two
`tool_use` blocks (ids `a`, `b`) followed by a user message answering only
`a`, the repair pass keeps the list unchanged — its look-ahead only tests for
the presence of *some* `tool_result` block, never for id coverage — so no
`tool_result` for `b` follows the assistant message. -/
theorem history_repair_claim_counterexample : ¬ c2_claim := by
  intro h
  obtain ⟨m2, hm2, hrole, hcov⟩ := h c2_input 0 c2_assistant_msg rfl rfl
  have h2 : c2_user_msg = m2 := Option.some.inj hm2
  obtain ⟨b2, hb2mem, hb2ty, hb2id⟩ := hcov
    { type := some "tool_use", id := some "b" }
    (by simp [c2_assistant_msg]) rfl
  rw [← h2] at hb2mem
  have hb2 : b2 =
      { type := some "tool_result", tool_use_id := some "a", content := some "r" } := by
    simpa [c2_user_msg] using hb2mem
  rw [hb2] at hb2id
  simp at hb2id

/-- Claim C2, amended to what the code enforces: (1) in the repaired list,
every assistant message carrying a `tool_use` block is immediately followed
by a user message containing at least one `tool_result` block — but nothing
guarantees the ids are covered, because the look-ahead (lines 294–304) only
tests for the presence of some `tool_result`; (2) only when no `tool_result`
block follows at all does the pass insert, immediately after the assistant
message, a synthetic user message holding one error `tool_result`
(`{"status": "error", "message": "No result available"}`) for each `tool_use`
id of that assistant message, in order. -/
theorem history_repair_amended :
    (∀ msgs : List Msg, ∀ i m, (fix_messages msgs).get? i = some m →
      msg_has_tool_use m = true →
      ∃ m2, (fix_messages msgs).get? (i + 1) = some m2 ∧ m2.role = "user" ∧
        m2.content.any (fun b => b.type == some "tool_result") = true) ∧
    (∀ (pre : List Msg) (m next : Msg) (post : List Msg),
      msg_has_tool_use m = true →
      (next.role == "user" && next.content.any fun b => b.type == some "tool_result") = false →
      ∃ out, fix_messages (pre ++ m :: next :: post) =
        out ++ m ::
          { role := "user",
            content := (m.content.filter (fun b => b.type == some "tool_use")).map
              (fun b =>
                { type := some "tool_result", tool_use_id := b.id,
                  content := some no_result_content }) } ::
          fix_messages_go (next :: post)) := by
  constructor
  · intro msgs i m hget hhas
    unfold fix_messages at hget ⊢
    by_cases hany : msgs.any msg_has_tool_use = true
    · rw [if_pos hany] at hget ⊢
      exact fix_go_pairing msgs i m hget hhas
    · rw [if_neg hany] at hget
      have hmem : m ∈ msgs := List.get?_mem hget
      exact absurd (List.any_eq_true.mpr ⟨m, hmem, hhas⟩) hany
  · intro pre m next post hm hc
    have hmu : (m.role == "user") = false := by
      unfold msg_has_tool_use at hm
      rw [Bool.and_eq_true] at hm
      have hr : m.role = "assistant" := by simpa using hm.1
      simp [hr]
    have hany : (pre ++ m :: next :: post).any msg_has_tool_use = true :=
      List.any_eq_true.mpr ⟨m, by simp, hm⟩
    unfold fix_messages
    rw [if_pos hany]
    obtain ⟨out, hout⟩ := fix_go_append m (next :: post) hmu pre.length pre le_rfl
    refine ⟨out, ?_⟩
    rw [hout]
    congr 1
    rw [fix_go_synth m next post hm hc]
    rw [append_synth, if_neg (by simp [synthetic_results_ne_nil m hm])]
    rfl

theorem history_repair_amended_witness :
    (∃ m2, (fix_messages c2_input).get? 1 = some m2 ∧ m2.role = "user" ∧
      m2.content.any (fun b => b.type == some "tool_result") = true) ∧
    (∃ out, fix_messages ([] ++ c2_assistant_msg :: c2_assistant_msg :: []) =
      out ++ c2_assistant_msg ::
        { role := "user",
          content := (c2_assistant_msg.content.filter (fun b => b.type == some "tool_use")).map
            (fun b =>
              { type := some "tool_result", tool_use_id := b.id,
                content := some no_result_content }) } ::
        fix_messages_go [c2_assistant_msg]) :=
  ⟨history_repair_amended.1 c2_input 0 c2_assistant_msg rfl rfl,
   history_repair_amended.2 [] c2_assistant_msg c2_assistant_msg [] rfl rfl⟩

/-! ## Conversation routes -/

/-- Claim C4 is false as stated: every cancel call appends the system notice
to the history, so the second call changes the history again (and cancel
after `completed` sets the status to `cancelled` — not a no-op). -/
theorem cancel_idempotence_counterexample : ¬ c4_claim := by
  intro h
  obtain ⟨⟨hstate, -⟩, -⟩ := h { conv := some [], task := some "completed" } rfl
  have hlen := congrArg (fun s : St => (s.conv.getD []).length) hstate
  simp [cancel_auto_execution, set_task_status, add_message_to_conversation] at hlen

/-- Claim C4, amended: cancelling is idempotent on the task status and on the
returned value (both calls set `cancelled` and return the same success body),
and it leaves the auto-execute counter alone, but each call appends one more
copy of the system notice to the history; cancelling after `completed` also
sets the status to `cancelled` and appends the notice, so it is not a no-op. -/
theorem cancel_twice_amended (st : St) (h : List Msg) (hconv : st.conv = some h) :
    (cancel_auto_execution st).2 =
      Except.ok ⟨"success", "Automatic tool execution cancelled"⟩ ∧
    (cancel_auto_execution (cancel_auto_execution st).1).2 = (cancel_auto_execution st).2 ∧
    (cancel_auto_execution st).1.task = some "cancelled" ∧
    (cancel_auto_execution (cancel_auto_execution st).1).1.task = some "cancelled" ∧
    (cancel_auto_execution st).1.count = st.count ∧
    (cancel_auto_execution st).1.conv = some (h ++ [cancel_notice]) ∧
    (cancel_auto_execution (cancel_auto_execution st).1).1.conv =
      some (h ++ [cancel_notice] ++ [cancel_notice]) := by
  obtain ⟨conv, task, count, progress, clock, upstream⟩ := st
  simp only [St.mk.injEq] at hconv ⊢
  subst hconv
  simp [cancel_auto_execution, set_task_status, add_message_to_conversation]

theorem cancel_twice_amended_witness :
    (cancel_auto_execution { conv := some [] }).2 =
      Except.ok ⟨"success", "Automatic tool execution cancelled"⟩ ∧
    (cancel_auto_execution (cancel_auto_execution { conv := some [] }).1).2 =
      (cancel_auto_execution { conv := some [] }).2 ∧
    (cancel_auto_execution { conv := some [] }).1.task = some "cancelled" ∧
    (cancel_auto_execution (cancel_auto_execution { conv := some [] }).1).1.task =
      some "cancelled" ∧
    (cancel_auto_execution { conv := some [] }).1.count = ({ conv := some [] } : St).count ∧
    (cancel_auto_execution { conv := some [] }).1.conv = some ([] ++ [cancel_notice]) ∧
    (cancel_auto_execution (cancel_auto_execution { conv := some [] }).1).1.conv =
      some ([] ++ [cancel_notice] ++ [cancel_notice]) :=
  cancel_twice_amended { conv := some [] } [] rfl

/-- Claim C6: the code is wrong here.  An invalid resume (status not
`paused`) is rejected synchronously and mutates nothing, as the claim says,
but the response is an HTTP 500, not the 4xx client error the route's own
`raise HTTPException(status_code=400, ...)` intends: that exception is raised
inside `try: ... except Exception as e: raise HTTPException(500, str(e))`,
which catches it and re-raises it as a server error. -/
theorem resume_invalid_rejected_with_500 :
    resume_auto_execution { conv := some [], task := some "running", count := 3 } =
      ({ conv := some [], task := some "running", count := 3 }, none,
        Except.error ⟨500, httpExceptionStr 400 "Cannot resume execution, status is running"⟩) :=
  rfl

/-- The extraction in the resume route ignores non-assistant messages, so the
appended system notice does not change the last assistant message. -/
theorem filter_assistant_append_notice (h : List Msg) :
    (h ++ [resume_notice]).filter (fun m => m.role == "assistant") =
      h.filter (fun m => m.role == "assistant") := by
  rw [List.filter_append]
  simp [resume_notice]

/-- Claim C5: resuming a paused conversation resets `autoExecuteCount` to 0,
leaves the task status `running`, restarts the engine with exactly the tool
invocations re-read from the last assistant message, and reports success.
The hypothesis that the last assistant message carries at least one
`tool_use` block is the shape in which the engine leaves every paused
conversation (it pauses right after recording an assistant reply with new
tool calls). -/
theorem resume_resets_and_restarts (st : St) (h : List Msg) (la : Msg)
    (hconv : st.conv = some h)
    (hpaused : st.task = some "paused")
    (hla : (h.filter (fun m => m.role == "assistant")).getLast? = some la)
    (htools : extract_tool_calls la.content ≠ []) :
    (resume_auto_execution st).1.count = 0 ∧
    (resume_auto_execution st).1.task = some "running" ∧
    (resume_auto_execution st).2.1 = some (extract_tool_calls la.content) ∧
    (resume_auto_execution st).2.2 =
      Except.ok ⟨"success", "Automatic tool execution resumed"⟩ := by
  obtain ⟨conv, task, count, progress, clock, upstream⟩ := st
  simp only [] at hconv hpaused
  subst hconv
  subst hpaused
  have hempty : (extract_tool_calls la.content).isEmpty = false := by
    rw [List.isEmpty_eq_false]
    exact htools
  simp [resume_auto_execution, update_progress, reset_auto_execute_count,
    add_message_to_conversation, filter_assistant_append_notice, hla, hempty,
    resume_notice, Option.or]

theorem resume_resets_and_restarts_witness :
    (resume_auto_execution c5_paused_state).1.count = 0 ∧
    (resume_auto_execution c5_paused_state).1.task = some "running" ∧
    (resume_auto_execution c5_paused_state).2.1 =
      some (extract_tool_calls c5_last_assistant.content) ∧
    (resume_auto_execution c5_paused_state).2.2 =
      Except.ok ⟨"success", "Automatic tool execution resumed"⟩ :=
  resume_resets_and_restarts c5_paused_state [c5_last_assistant] c5_last_assistant
    rfl rfl rfl (by simp [extract_tool_calls, c5_last_assistant])

/-- Claim C8: the message list served by the history-retrieval route never
contains a message flagged `is_placeholder` or `is_temporary`. -/
theorem get_history_filters_flags (st : St) (l : List Msg) (m : Msg)
    (hok : get_conversation_messages st = Except.ok l) (hm : m ∈ l) :
    m.is_placeholder = false ∧ m.is_temporary = false := by
  cases hconv : st.conv with
  | none =>
      rw [get_conversation_messages, hconv] at hok
      exact absurd hok (by simp)
  | some h =>
      rw [get_conversation_messages, hconv] at hok
      have hl : display_history h = l := by
        injection hok
      unfold display_history at hl
      by_cases hany : (h.any fun x => x.is_placeholder || x.is_temporary) = true
      · rw [if_pos hany] at hl
        subst hl
        have := (List.mem_filter.mp hm).2
        rw [Bool.and_eq_true] at this
        exact ⟨by simpa using this.1, by simpa using this.2⟩
      · rw [if_neg hany] at hl
        subst hl
        have hany' : (h.any fun x => x.is_placeholder || x.is_temporary) = false := by
          simpa using hany
        have hall := List.any_eq_false.mp hany' m hm
        simp only [Bool.or_eq_true, not_or] at hall
        exact ⟨by simpa using hall.1, by simpa using hall.2⟩

theorem get_history_filters_flags_witness :
    ({ role := "user", content := [] } : Msg).is_placeholder = false ∧
    ({ role := "user", content := [] } : Msg).is_temporary = false :=
  get_history_filters_flags { conv := some [{ role := "user", content := [] }] }
    (display_history [{ role := "user", content := [] }])
    { role := "user", content := [] } rfl (List.mem_singleton_self _)

/-! ## The continuation engine -/

/-- One batch iteration: the task status ends at `executing_tool`, count,
upstream and progress-clock-independent fields are untouched, and the
conversation stays present. -/
theorem run_one_tool_state (runTool : ToolCall → Except String Json) (st : St)
    (tc : ToolCall) (i n : Nat) :
    (run_one_tool runTool st tc i n).1.task = some "executing_tool" ∧
    (run_one_tool runTool st tc i n).1.count = st.count ∧
    (run_one_tool runTool st tc i n).1.upstream = st.upstream ∧
    (run_one_tool runTool st tc i n).1.conv.isSome = true := by
  simp [run_one_tool, add_message_to_conversation, filter_conversation, update_progress]

/-- A message whose id is a `toolComplete` id survives one batch iteration:
the only removal targets `is_status` messages with the iteration's
`toolStart` id. -/
theorem run_one_tool_preserves (runTool : ToolCall → Except String Json) (st : St)
    (tc : ToolCall) (i n : Nat) (m : Msg) (hm : m ∈ st.conv.getD [])
    (c : String) (t : Nat) (hid : m.id = some (MsgId.toolComplete c t)) :
    m ∈ (run_one_tool runTool st tc i n).1.conv.getD [] := by
  unfold run_one_tool
  simp only [add_message_to_conversation, filter_conversation, update_progress,
    Option.getD_some, Option.map_some']
  refine List.mem_append_left _ (List.mem_filter.mpr ⟨List.mem_append_left _ hm, ?_⟩)
  simp [hid]

/-- A `toolComplete`-id message survives the whole batch loop. -/
theorem run_batch_preserves (runTool : ToolCall → Except String Json) :
    ∀ (calls : List ToolCall) (st : St) (i n : Nat) (acc : List ToolResultEntry)
      (m : Msg), m ∈ st.conv.getD [] →
      (∃ c t, m.id = some (MsgId.toolComplete c t)) →
      m ∈ (run_batch runTool st calls i n acc).1.conv.getD [] := by
  intro calls
  induction calls with
  | nil => intro st i n acc m hm _; exact hm
  | cons tc rest ih =>
      intro st i n acc m hm hid
      obtain ⟨c, t, hidm⟩ := hid
      exact ih _ _ _ _ m (run_one_tool_preserves runTool st tc i n m hm c t hidm) ⟨c, t, hidm⟩

/-- The batch loop emits one transient `is_temporary` completion message per
tool call, and all of them are still in the history when the loop ends. -/
theorem run_batch_completion (runTool : ToolCall → Except String Json) :
    ∀ (calls : List ToolCall) (st : St) (i n : Nat) (acc : List ToolResultEntry),
      ∀ tc ∈ calls, ∃ m,
        m ∈ (run_batch runTool st calls i n acc).1.conv.getD [] ∧
        m.is_temporary = true ∧ m.is_status = true ∧
        m.content = [textBlock ("Tool " ++ pyStr tc.name ++ " executed successfully")] := by
  intro calls
  induction calls with
  | nil => intro st i n acc tc hmem; simp at hmem
  | cons tc0 rest ih =>
      intro st i n acc tc hmem
      have hstep : run_batch runTool st (tc0 :: rest) i n acc =
          run_batch runTool (run_one_tool runTool st tc0 i n).1 rest (i + 1) n
            (acc ++ (run_one_tool runTool st tc0 i n).2) := by
        simp [run_batch]
      rw [hstep]
      rcases List.mem_cons.mp hmem with rfl | hmem'
      · refine ⟨⟨"system", [textBlock ("Tool " ++ pyStr tc.name ++ " executed successfully")],
          some (MsgId.toolComplete (pyStr tc.id) (st.clock + 1)), false, true, true⟩,
          run_batch_preserves runTool rest _ (i + 1) n _ _ ?_ ⟨_, _, rfl⟩, rfl, rfl, rfl⟩
        unfold run_one_tool
        simp only [add_message_to_conversation, filter_conversation, update_progress,
          Option.getD_some, Option.map_some']
        exact List.mem_append_right _ (List.mem_cons_self _ _)
      · exact ih _ _ _ _ tc hmem'

/-- State bookkeeping across the batch loop: the auto-execute count, the
upstream-call count and the presence of the conversation are untouched, and
the task status stays `executing_tool` once set. -/
theorem run_batch_state (runTool : ToolCall → Except String Json) :
    ∀ (calls : List ToolCall) (st : St) (i n : Nat) (acc : List ToolResultEntry),
      (run_batch runTool st calls i n acc).1.count = st.count ∧
      (run_batch runTool st calls i n acc).1.upstream = st.upstream ∧
      (st.task = some "executing_tool" →
        (run_batch runTool st calls i n acc).1.task = some "executing_tool") ∧
      (st.conv.isSome = true → (run_batch runTool st calls i n acc).1.conv.isSome = true) := by
  intro calls
  induction calls with
  | nil => intro st i n acc; exact ⟨rfl, rfl, fun h => h, fun h => h⟩
  | cons tc0 rest ih =>
      intro st i n acc
      have hstep : run_batch runTool st (tc0 :: rest) i n acc =
          run_batch runTool (run_one_tool runTool st tc0 i n).1 rest (i + 1) n
            (acc ++ (run_one_tool runTool st tc0 i n).2) := by
        simp [run_batch]
      rw [hstep]
      obtain ⟨htask1, hcount1, hup1, hconv1⟩ := run_one_tool_state runTool st tc0 i n
      obtain ⟨hcount2, hup2, htask2, hconv2⟩ := ih (run_one_tool runTool st tc0 i n).1 (i + 1) n
        (acc ++ (run_one_tool runTool st tc0 i n).2)
      exact ⟨by rw [hcount2, hcount1], by rw [hup2, hup1],
        fun _ => htask2 htask1, fun _ => hconv2 hconv1⟩

/-- Claim C7: if the cancellation flag is set after the last tool of a batch
finished but before the results are bundled, the post-batch checkpoint halts
the cycle: the state is exactly the one the cancel call left (so no user
message bundling the tool results is appended), no upstream call is made, and
the transient tool-completion messages emitted during the batch are still in
the history. -/
theorem cancellation_checkpoint_halts (runTool : ToolCall → Except String Json)
    (modelReply : Nat → Except String (List Block)) (autoExec : Bool)
    (st : St) (h : List Msg) (calls : List ToolCall) (hconv : st.conv = some h) :
    after_batch modelReply autoExec
        (cancel_auto_execution (run_batch runTool st calls 0 calls.length []).1).1
        (run_batch runTool st calls 0 calls.length []).2 =
      ((cancel_auto_execution (run_batch runTool st calls 0 calls.length []).1).1, none) ∧
    (cancel_auto_execution (run_batch runTool st calls 0 calls.length []).1).1.upstream =
      st.upstream ∧
    (∀ tc ∈ calls, ∃ m,
      m ∈ (cancel_auto_execution (run_batch runTool st calls 0 calls.length []).1).1.conv.getD [] ∧
      m.is_temporary = true ∧
      m.content = [textBlock ("Tool " ++ pyStr tc.name ++ " executed successfully")]) := by
  obtain ⟨hcount, hup, -, hconvk⟩ := run_batch_state runTool calls st 0 calls.length []
  have hconv1 : (run_batch runTool st calls 0 calls.length []).1.conv.isSome = true :=
    hconvk (by rw [hconv]; rfl)
  obtain ⟨h1, hh1⟩ := Option.isSome_iff_exists.mp hconv1
  have hcancel : (cancel_auto_execution (run_batch runTool st calls 0 calls.length []).1).1 =
      { (run_batch runTool st calls 0 calls.length []).1 with
          task := some "cancelled", conv := some (h1 ++ [cancel_notice]) } := by
    rw [cancel_auto_execution, hh1]
    simp [set_task_status, add_message_to_conversation, hh1]
  refine ⟨?_, ?_, ?_⟩
  · rw [after_batch, hcancel]
    simp
  · rw [hcancel]
    exact hup
  · intro tc hmem
    obtain ⟨m, hm, htmp, -, hcontent⟩ :=
      run_batch_completion runTool calls st 0 calls.length [] tc hmem
    refine ⟨m, ?_, htmp, hcontent⟩
    rw [hcancel]
    simp only [Option.getD_some]
    rw [hh1] at hm
    exact List.mem_append_left _ hm

theorem cancellation_checkpoint_halts_witness :
    after_batch (fun _ => Except.error "unused") true
        (cancel_auto_execution
          (run_batch (fun _ => Except.ok Json.null) { conv := some [] }
            [{ id := some "t9", name := some "web_search" }] 0 1 []).1).1
        (run_batch (fun _ => Except.ok Json.null) { conv := some [] }
          [{ id := some "t9", name := some "web_search" }] 0 1 []).2 =
      ((cancel_auto_execution
          (run_batch (fun _ => Except.ok Json.null) { conv := some [] }
            [{ id := some "t9", name := some "web_search" }] 0 1 []).1).1, none) ∧
    (cancel_auto_execution
        (run_batch (fun _ => Except.ok Json.null) { conv := some [] }
          [{ id := some "t9", name := some "web_search" }] 0 1 []).1).1.upstream =
      ({ conv := some [] } : St).upstream ∧
    (∀ tc ∈ [({ id := some "t9", name := some "web_search" } : ToolCall)], ∃ m,
      m ∈ (cancel_auto_execution
          (run_batch (fun _ => Except.ok Json.null) { conv := some [] }
            [{ id := some "t9", name := some "web_search" }] 0 1 []).1).1.conv.getD [] ∧
      m.is_temporary = true ∧
      m.content = [textBlock ("Tool " ++ pyStr tc.name ++ " executed successfully")]) :=
  cancellation_checkpoint_halts (fun _ => Except.ok Json.null) (fun _ => Except.error "unused")
    true { conv := some [] } [] [{ id := some "t9", name := some "web_search" }] rfl

/-- Steps 3–9 of a successful, uncancelled cycle: one upstream call is made,
the counter is bumped exactly once, and the cycle either pauses (ceiling
exceeded: count reached 11) or hands the extracted batch to the next cycle. -/
theorem after_batch_spec (modelReply : Nat → Except String (List Block))
    (st1 : St) (results : List ToolResultEntry) (h : List Msg) (bs : List Block)
    (hconv : st1.conv = some h) (htask : st1.task = some "executing_tool")
    (hreply : modelReply st1.upstream = Except.ok bs)
    (hbs : extract_tool_calls bs ≠ []) :
    ∃ st', after_batch modelReply true st1 results =
        (st', if st1.count + 1 > 10 then none else some (extract_tool_calls bs)) ∧
      st'.count = st1.count + 1 ∧
      st'.upstream = st1.upstream + 1 ∧
      st'.conv.isSome = true ∧
      (st1.count + 1 > 10 → st'.task = some "paused" ∧ pause_message ∈ st'.conv.getD []) ∧
      (st1.count + 1 ≤ 10 → st'.task = some "preparing_tool_execution") := by
  have hEmpty : (extract_tool_calls bs).isEmpty = false := List.isEmpty_eq_false.mpr hbs
  have hsnd : (after_batch modelReply true st1 results).2 =
      (if st1.count + 1 > 10 then none else some (extract_tool_calls bs)) := by
    by_cases hcnt : st1.count + 1 > 10 <;>
      simp [after_batch, call_model, process_reply, filter_conversation,
        add_message_to_conversation, update_progress, increment_auto_execute_count,
        hconv, htask, hreply, hEmpty, hcnt]
  refine ⟨(after_batch modelReply true st1 results).1, Prod.ext rfl hsnd, ?_, ?_, ?_, ?_, ?_⟩
  · by_cases hcnt : st1.count + 1 > 10 <;>
      simp [after_batch, call_model, process_reply, filter_conversation,
        add_message_to_conversation, update_progress, increment_auto_execute_count,
        hconv, htask, hreply, hEmpty, hcnt]
  · by_cases hcnt : st1.count + 1 > 10 <;>
      simp [after_batch, call_model, process_reply, filter_conversation,
        add_message_to_conversation, update_progress, increment_auto_execute_count,
        hconv, htask, hreply, hEmpty, hcnt]
  · by_cases hcnt : st1.count + 1 > 10 <;>
      simp [after_batch, call_model, process_reply, filter_conversation,
        add_message_to_conversation, update_progress, increment_auto_execute_count,
        hconv, htask, hreply, hEmpty, hcnt]
  · intro hcnt
    constructor <;>
      simp [after_batch, call_model, process_reply, filter_conversation,
        add_message_to_conversation, update_progress, increment_auto_execute_count,
        hconv, htask, hreply, hEmpty, hcnt]
  · intro hcnt
    have hcnt' : ¬ st1.count + 1 > 10 := by omega
    simp [after_batch, call_model, process_reply, filter_conversation,
      add_message_to_conversation, update_progress, increment_auto_execute_count,
      hconv, htask, hreply, hEmpty, hcnt']

/-- One full uncancelled cycle with auto-execution on and a reply that
contains further tool invocations: the counter is incremented exactly once,
exactly one upstream call is made, and the cycle pauses exactly when the new
count exceeds the ceiling of 10. -/
theorem cycle_spec (runTool : ToolCall → Except String Json)
    (modelReply : Nat → Except String (List Block)) (st : St)
    (calls : List ToolCall) (bs : List Block)
    (hconv : st.conv.isSome = true) (hcalls : calls ≠ [])
    (htask : st.task ≠ some "cancelled")
    (hreply : modelReply st.upstream = Except.ok bs)
    (hbs : extract_tool_calls bs ≠ []) :
    ∃ st', cycle runTool modelReply true st calls =
        (st', if st.count + 1 > 10 then none else some (extract_tool_calls bs)) ∧
      st'.count = st.count + 1 ∧
      st'.upstream = st.upstream + 1 ∧
      st'.conv.isSome = true ∧
      (st.count + 1 > 10 → st'.task = some "paused" ∧ pause_message ∈ st'.conv.getD []) ∧
      (st.count + 1 ≤ 10 → st'.task = some "preparing_tool_execution") := by
  obtain ⟨h, hh⟩ := Option.isSome_iff_exists.mp hconv
  cases calls with
  | nil => exact absurd rfl hcalls
  | cons tc0 rest =>
      have hnc : ((if st.task == none then set_task_status st "running" else st).task ==
          some "cancelled") = false := by
        cases ht : st.task with
        | none => simp [set_task_status, ht]
        | some s =>
            have hs : s ≠ "cancelled" := fun hr => htask (by rw [ht, hr])
            simp [ht, set_task_status, hs]
      have hcyc : cycle runTool modelReply true st (tc0 :: rest) =
          after_batch modelReply true
            (run_batch runTool
              (update_progress (if st.task == none then set_task_status st "running" else st)
                "executing_tool" "tool_execution"
                ("Executing tool: " ++ pyStr tc0.name ++ "...") 25)
              (tc0 :: rest) 0 (tc0 :: rest).length []).1
            (run_batch runTool
              (update_progress (if st.task == none then set_task_status st "running" else st)
                "executing_tool" "tool_execution"
                ("Executing tool: " ++ pyStr tc0.name ++ "...") 25)
              (tc0 :: rest) 0 (tc0 :: rest).length []).2 := by
        rw [cycle, hh]
        simp only [hnc, Bool.false_eq_true, if_false]
      have hPconv : (if st.task == none then set_task_status st "running" else st).conv =
          st.conv := by
        split <;> rfl
      have hPcount : (if st.task == none then set_task_status st "running" else st).count =
          st.count := by
        split <;> rfl
      have hPup : (if st.task == none then set_task_status st "running" else st).upstream =
          st.upstream := by
        split <;> rfl
      obtain ⟨hBcount, hBup, hBtask, hBconv⟩ := run_batch_state runTool (tc0 :: rest)
        (update_progress (if st.task == none then set_task_status st "running" else st)
          "executing_tool" "tool_execution"
          ("Executing tool: " ++ pyStr tc0.name ++ "...") 25) 0 (tc0 :: rest).length []
      have hUtask : (update_progress (if st.task == none then set_task_status st "running" else st)
          "executing_tool" "tool_execution"
          ("Executing tool: " ++ pyStr tc0.name ++ "...") 25).task = some "executing_tool" := by
        simp [update_progress]
      have hUconv : (update_progress (if st.task == none then set_task_status st "running" else st)
          "executing_tool" "tool_execution"
          ("Executing tool: " ++ pyStr tc0.name ++ "...") 25).conv.isSome = true := by
        simp only [update_progress]
        rw [hPconv, hh]
        rfl
      obtain ⟨h4, hh4⟩ := Option.isSome_iff_exists.mp (hBconv hUconv)
      obtain ⟨st', habs, hc1, hc2, hc3, hc4, hc5⟩ := after_batch_spec modelReply
        (run_batch runTool
          (update_progress (if st.task == none then set_task_status st "running" else st)
            "executing_tool" "tool_execution"
            ("Executing tool: " ++ pyStr tc0.name ++ "...") 25)
          (tc0 :: rest) 0 (tc0 :: rest).length []).1
        (run_batch runTool
          (update_progress (if st.task == none then set_task_status st "running" else st)
            "executing_tool" "tool_execution"
            ("Executing tool: " ++ pyStr tc0.name ++ "...") 25)
          (tc0 :: rest) 0 (tc0 :: rest).length []).2
        h4 bs hh4 (hBtask hUtask)
        (by rw [hBup]; simp only [update_progress]; rw [hPup]; exact hreply) hbs
      have hcnt4 : (run_batch runTool
          (update_progress (if st.task == none then set_task_status st "running" else st)
            "executing_tool" "tool_execution"
            ("Executing tool: " ++ pyStr tc0.name ++ "...") 25)
          (tc0 :: rest) 0 (tc0 :: rest).length []).1.count = st.count := by
        rw [hBcount]
        simp only [update_progress]
        rw [hPcount]
      have hup4 : (run_batch runTool
          (update_progress (if st.task == none then set_task_status st "running" else st)
            "executing_tool" "tool_execution"
            ("Executing tool: " ++ pyStr tc0.name ++ "...") 25)
          (tc0 :: rest) 0 (tc0 :: rest).length []).1.upstream = st.upstream := by
        rw [hBup]
        simp only [update_progress]
        rw [hPup]
      rw [hcnt4] at habs hc1 hc4 hc5
      rw [hup4] at hc2
      exact ⟨st', by rw [hcyc, habs], hc1, hc2, hc3, hc4, hc5⟩

/-- A run that ends paused is untouched by the `finally` blocks. -/
theorem apply_finally_paused (st : St) (h : st.task = some "paused") :
    apply_finally st = st := by
  rw [apply_finally, h]
  rfl

/-- Chained cycles under an always-more-tools oracle: starting `n` cycles
below the point where the count reaches 11, the run makes exactly `n` more
upstream calls, ends with the count at exactly 11 and the status `paused`,
and the confirmation request is in the history — independently of how much
fuel beyond `n` the loop is given. -/
theorem engine_run_paused (runTool : ToolCall → Except String Json)
    (modelReply : Nat → Except String (List Block))
    (halways : ∀ k, ∃ bs, modelReply k = Except.ok bs ∧ extract_tool_calls bs ≠ []) :
    ∀ (n : Nat), 1 ≤ n → n ≤ 11 →
      ∀ (fuel : Nat) (st : St) (calls : List ToolCall),
        n ≤ fuel → st.count = 11 - n → st.conv.isSome = true →
        st.task ≠ some "cancelled" → calls ≠ [] →
        (engine_run runTool modelReply true fuel st calls).count = 11 ∧
        (engine_run runTool modelReply true fuel st calls).task = some "paused" ∧
        pause_message ∈ (engine_run runTool modelReply true fuel st calls).conv.getD [] ∧
        (engine_run runTool modelReply true fuel st calls).upstream = st.upstream + n := by
  intro n
  induction n with
  | zero => intro h1 _; omega
  | succ n ih =>
      intro _ hn11 fuel st calls hfuel hcount hconv htask hcalls
      obtain ⟨bs, hreply, hbs⟩ := halways st.upstream
      obtain ⟨st', hcyc, hc1, hc2, hc3, hc4, hc5⟩ :=
        cycle_spec runTool modelReply st calls bs hconv hcalls htask hreply hbs
      match fuel, hfuel with
      | fuel' + 1, _ =>
          rcases Nat.eq_zero_or_pos n with rfl | hn1
          · have hceil : st.count + 1 > 10 := by omega
            obtain ⟨hp, hmem⟩ := hc4 hceil
            rw [if_pos hceil] at hcyc
            have hrun : engine_run runTool modelReply true (fuel' + 1) st calls = st' := by
              rw [engine_run, hcyc]
            rw [hrun]
            exact ⟨by omega, hp, hmem, by omega⟩
          · have hceil : ¬ st.count + 1 > 10 := by omega
            rw [if_neg hceil] at hcyc
            have hrun : engine_run runTool modelReply true (fuel' + 1) st calls =
                engine_run runTool modelReply true fuel' st' (extract_tool_calls bs) := by
              rw [engine_run, hcyc]
            have htask' : st'.task ≠ some "cancelled" := by
              rw [hc5 (by omega)]
              simp
            obtain ⟨g1, g2, g3, g4⟩ := ih hn1 (by omega) fuel' st' (extract_tool_calls bs)
              (by omega) (by omega) hc3 htask' hbs
            rw [hrun]
            exact ⟨g1, g2, g3, by omega⟩

/-- Claim C1: a run of the continuation engine with auto-execution enabled in
which every model reply carries further tool invocations increments
`autoExecuteCount` exactly once per automatic cycle (one upstream call each);
starting from a fresh counter the run makes exactly 11 cycles, the count ends
at exactly 11 — the first value exceeding the ceiling of 10 — the
confirmation system message is appended, the status becomes `paused`, and no
further cycle is started no matter how much fuel remains. -/
theorem auto_recursion_bounded (runTool : ToolCall → Except String Json)
    (modelReply : Nat → Except String (List Block)) (st : St)
    (calls : List ToolCall) (fuel : Nat)
    (hconv : st.conv.isSome = true) (htask : st.task ≠ some "cancelled")
    (hcount : st.count = 0) (hcalls : calls ≠ []) (hfuel : 11 ≤ fuel)
    (halways : ∀ k, ∃ bs, modelReply k = Except.ok bs ∧ extract_tool_calls bs ≠ []) :
    (process_tool_calls_and_continue runTool modelReply true fuel st calls).count = 11 ∧
    (process_tool_calls_and_continue runTool modelReply true fuel st calls).task =
      some "paused" ∧
    pause_message ∈
      (process_tool_calls_and_continue runTool modelReply true fuel st calls).conv.getD [] ∧
    (process_tool_calls_and_continue runTool modelReply true fuel st calls).upstream =
      st.upstream + 11 := by
  obtain ⟨g1, g2, g3, g4⟩ := engine_run_paused runTool modelReply halways 11
    (by omega) (by omega) fuel st calls hfuel (by omega) hconv htask hcalls
  rw [process_tool_calls_and_continue, apply_finally_paused _ g2]
  exact ⟨g1, g2, g3, g4⟩

theorem auto_recursion_bounded_witness :
    (process_tool_calls_and_continue (fun _ => Except.ok (Json.obj []))
      (fun _ => Except.ok [c1_reply_block]) true 11 c1_start [c1_call]).count = 11 ∧
    (process_tool_calls_and_continue (fun _ => Except.ok (Json.obj []))
      (fun _ => Except.ok [c1_reply_block]) true 11 c1_start [c1_call]).task =
      some "paused" ∧
    pause_message ∈
      (process_tool_calls_and_continue (fun _ => Except.ok (Json.obj []))
        (fun _ => Except.ok [c1_reply_block]) true 11 c1_start [c1_call]).conv.getD [] ∧
    (process_tool_calls_and_continue (fun _ => Except.ok (Json.obj []))
      (fun _ => Except.ok [c1_reply_block]) true 11 c1_start [c1_call]).upstream =
      c1_start.upstream + 11 :=
  auto_recursion_bounded (fun _ => Except.ok (Json.obj []))
    (fun _ => Except.ok [c1_reply_block]) c1_start [c1_call] 11 rfl (by simp [c1_start])
    rfl (by simp) (by omega)
    (fun _ => ⟨[c1_reply_block], rfl, by simp [extract_tool_calls, c1_reply_block]⟩)
